import Mathlib

/-!
# Verification of the loggly client message-preparation pipeline

Shallow embedding of `lib/loggly/client.js` (node-loggly-bulk): oversized
message truncation, dual-mode serialization, tag filtering, request
assembly and delivery-completion handling.

JavaScript strings are modelled as lists of UTF-16 code units (`JSStr`);
`Buffer.byteLength` is modelled by the UTF-8 encoded size of the code-unit
sequence (surrogate pairs encode to 4 bytes, lone surrogates to 3), and
`String.prototype.slice(0, n)` by `List.take n` on code units.
-/

set_option autoImplicit false

namespace LogglyClient

/-- A JavaScript string: a finite sequence of UTF-16 code units. -/
abbrev JSStr := List Nat

/-- UTF-16 code units of one Lean character (surrogate pair when astral). -/
def charUnits (c : Char) : List Nat :=
  if c.toNat < 65536 then [c.toNat]
  else [55296 + (c.toNat - 65536) / 1024, 56320 + (c.toNat - 65536) % 1024]

/-- Embed a Lean string literal as a JavaScript string. -/
def jstr (s : String) : JSStr :=
  (s.data.map charUnits).flatten

/-- Model of Node's `Buffer.byteLength(s)` (UTF-8 byte count): code units
below `0x80` take 1 byte, below `0x800` two bytes, a high surrogate
followed by a low surrogate takes 4 bytes for the pair, and every other
code unit (including a lone surrogate, encoded as U+FFFD) takes 3 bytes. -/
def byteLength : JSStr → Nat
  | [] => 0
  | u :: rest =>
    if u < 128 then 1 + byteLength rest
    else if u < 2048 then 2 + byteLength rest
    else if 55296 ≤ u ∧ u ≤ 56319 then
      match rest with
      | v :: rest2 =>
        if 56320 ≤ v ∧ v ≤ 57343 then 4 + byteLength rest2
        else 3 + byteLength (v :: rest2)
      | [] => 3
    else 3 + byteLength rest

/-- Decimal digits of a natural number, as JS string code units
(model of `Number.prototype.toString`). -/
def natToStr (n : Nat) : JSStr :=
  (Nat.toDigits 10 n).map Char.toNat

/-- `EVENT_SIZE` from client.js line 11: `1000 * 1000`. -/
def EVENT_SIZE : Nat := 1000 * 1000

/-- Result shape of `truncateLargeMessage` (client.js lines 39-42). -/
structure TruncResult where
  message : JSStr
  isMessageTruncated : Bool
  deriving DecidableEq, Repr

/-- `truncateLargeMessage` (client.js lines 31-43): measures the message
with `Buffer.byteLength` and, when over `EVENT_SIZE`, replaces it with
`message.slice(0, EVENT_SIZE)` — a slice of UTF-16 code units. -/
def truncateLargeMessage (message : JSStr) : TruncResult :=
  let maximumBytesAllowedToLoggly := EVENT_SIZE
  let bytesLengthOfLogMessage := byteLength message
  if bytesLengthOfLogMessage > maximumBytesAllowedToLoggly then
    { message := message.take maximumBytesAllowedToLoggly
      isMessageTruncated := true }
  else
    { message := message, isMessageTruncated := false }

/-- Heap node of a JavaScript value: a string primitive, a plain object
(fields map to heap references), or an array (elements are heap
references). References make cyclic object graphs representable. -/
inductive JNode where
  | nstr (s : JSStr)
  | nobj (fields : List (JSStr × Nat))
  | narr (elems : List Nat)
  deriving DecidableEq, Repr

/-- A JavaScript value: a heap of nodes plus a root reference. -/
structure JSVal where
  heap : List JNode
  root : Nat
  deriving DecidableEq, Repr

/-- A string primitive as a value. -/
def strVal (s : JSStr) : JSVal := ⟨[.nstr s], 0⟩

/-- `typeof v === 'object'` for our modelled values. -/
def isObjectVal (v : JSVal) : Bool :=
  match v.heap.get? v.root with
  | some (.nobj _) => true
  | some (.narr _) => true
  | _ => false

/-- `typeof v === 'string'`: the underlying string when `v` is one. -/
def strOf (v : JSVal) : Option JSStr :=
  match v.heap.get? v.root with
  | some (.nstr s) => some s
  | _ => none

/-- `Array.isArray(v)`. -/
def isArrayVal (v : JSVal) : Bool :=
  match v.heap.get? v.root with
  | some (.narr _) => true
  | _ => false

/-- JSON escaping of one code unit inside a string literal, per
`JSON.stringify`: quote, backslash and control characters are escaped,
everything else passes through. -/
def escapeUnit (u : Nat) : List Nat :=
  if u = 34 then [92, 34]
  else if u = 92 then [92, 92]
  else if u = 8 then [92, 98]
  else if u = 9 then [92, 116]
  else if u = 10 then [92, 110]
  else if u = 12 then [92, 102]
  else if u = 13 then [92, 114]
  else if u < 32 then
    [92, 117, 48, 48,
     (if u / 16 < 10 then 48 + u / 16 else 87 + u / 16),
     (if u % 16 < 10 then 48 + u % 16 else 87 + u % 16)]
  else [u]

/-- JSON string literal for `s`: a double quote, the escaped code units,
and a closing double quote. -/
def quoteStr (s : JSStr) : JSStr :=
  [34] ++ (s.map escapeUnit).flatten ++ [34]

/-- `Array.prototype.join(sep)` over already-serialized pieces. -/
def joinWith (sep : JSStr) : List JSStr → JSStr
  | [] => []
  | [s] => s
  | s :: rest => s ++ sep ++ joinWith sep rest

/-- Failure modes of the modelled `JSON.stringify` builtin: `circular` is
the TypeError JavaScript throws on a circular structure; `noFuel` and
`badRef` are model artifacts that never fire on well-formed values when
the fuel is at least the heap size plus two. -/
inductive JsonErr where
  | circular
  | noFuel
  | badRef
  deriving DecidableEq, Repr

/-- Recursive core of the `JSON.stringify` builtin on the heap model.
`stack` holds the references currently on the recursion path; revisiting
one of them raises the circular-structure error. Fuel only bounds the
recursion depth (sibling fields share the same fuel), so any fuel above
the heap size is enough. -/
def stringifyCore (heap : List JNode) : Nat → List Nat → Nat → Except JsonErr JSStr
  | 0, _, _ => .error .noFuel
  | fuel + 1, stack, i =>
    match heap.get? i with
    | none => .error .badRef
    | some (.nstr s) => .ok (quoteStr s)
    | some (.nobj fields) =>
      if i ∈ stack then .error .circular
      else
        (fields.mapM (fun kv =>
          (stringifyCore heap fuel (i :: stack) kv.2).map
            (fun v => quoteStr kv.1 ++ [58] ++ v))).map
          (fun parts => [123] ++ joinWith [44] parts ++ [125])
    | some (.narr elems) =>
      if i ∈ stack then .error .circular
      else
        (elems.mapM (stringifyCore heap fuel (i :: stack))).map
          (fun parts => [91] ++ joinWith [44] parts ++ [93])

/-- `JSON.stringify(v)` on a value: runs the core with enough fuel for any
acyclic traversal of the heap. -/
def jsonStringifyVal (v : JSVal) : Except JsonErr JSStr :=
  stringifyCore v.heap (v.heap.length + 2) [] v.root

/-- Recursive core of `json-stringify-safe` with a `noop` decycler
(client.js line 24 passes `noop`): a circular reference is replaced by
`undefined`, which drops the object property, or serializes as `null`
inside an array. `none` stands for `undefined`. -/
def stringifySafeCore (heap : List JNode) : Nat → List Nat → Nat → Option JSStr
  | 0, _, _ => none
  | fuel + 1, stack, i =>
    match heap.get? i with
    | none => none
    | some (.nstr s) => some (quoteStr s)
    | some (.nobj fields) =>
      if i ∈ stack then none
      else
        some ([123] ++
          joinWith [44]
            (fields.filterMap (fun kv =>
              (stringifySafeCore heap fuel (i :: stack) kv.2).map
                (fun v => quoteStr kv.1 ++ [58] ++ v))) ++ [125])
    | some (.narr elems) =>
      if i ∈ stack then none
      else
        some ([91] ++
          joinWith [44]
            (elems.map (fun j =>
              (stringifySafeCore heap fuel (i :: stack) j).getD (jstr "null"))) ++ [93])

/-- `stringifySafe(v, null, null, noop)` as called in client.js line 24. -/
def stringifySafeVal (v : JSVal) : JSStr :=
  (stringifySafeCore v.heap (v.heap.length + 2) [] v.root).getD []

/-- `stringify` (client.js lines 20-27): try `JSON.stringify`, and on any
exception fall back to the cycle-safe encoder. -/
def stringify (msg : JSVal) : JSStr :=
  match jsonStringifyVal msg with
  | .ok payload => payload
  | .error _ => stringifySafeVal msg

/-- `\w` of JavaScript regexes: `[A-Za-z0-9_]`. -/
def isWordUnit (u : Nat) : Bool :=
  (48 ≤ u && u ≤ 57) || (65 ≤ u && u ≤ 90) || (97 ≤ u && u ≤ 122) || u = 95

/-- The character class `[\w\d-_.]` of the tag regex: word characters,
digits, hyphen, underscore and dot (`-` sits after the class escape `\d`
so it is a literal hyphen). -/
def isTagClassUnit (u : Nat) : Bool :=
  isWordUnit u || u = 45 || u = 46

/-- `/^[\w\d][\w\d-_.]+/.test(tag)` (client.js line 223): the regex is
anchored at the start only, so the test succeeds exactly when the string
has at least two code units, the first a word character and the second in
the class — trailing characters are unconstrained. -/
def isSolidTest (tag : JSStr) : Bool :=
  match tag with
  | u0 :: u1 :: _ => isWordUnit u0 && isTagClassUnit u1
  | _ => false

/-- `Loggly.prototype.tagFilter` (client.js lines 222-240) on an array of
string tags: keep the truthy (non-empty) tags passing the regex test with
`length <= 64` (UTF-16 code units), in input order. -/
def tagFilter (tags : List JSStr) : List JSStr :=
  tags.filter (fun tag => !tag.isEmpty && isSolidTest tag && tag.length ≤ 64)

/-- Client state set up by the `Loggly` constructor (client.js lines
63-98). `proxy`, `bufferOptions`, `networkErrorsOnConsole` and the
`default`/`api` urls are opaque pass-through configuration never touched
by the preparation pipeline and are omitted. -/
structure Loggly where
  subdomain : JSStr
  token : JSStr
  host : JSStr
  json : Bool
  userAgent : JSStr
  useTagHeader : Bool
  isBulk : Bool
  appName : Option JSStr
  tags : Option (List JSStr)
  urlLog : JSStr
  urlBulk : JSStr
  deriving DecidableEq, Repr

/-- Constructor options (client.js lines 63-81). Empty strings model the
falsy/absent cases of `subdomain`, `token`, `host` and `appName`;
`useTagHeader := none` models `'useTagHeader' in options` being false. -/
structure ClientOptions where
  subdomain : JSStr
  token : JSStr
  host : JSStr
  json : Bool
  useTagHeader : Option Bool
  isBulk : Bool
  tags : Option (List JSStr)
  appName : JSStr
  deriving DecidableEq, Repr

/-- `createClient` / the `Loggly` constructor (client.js lines 49-98):
missing `subdomain` or `token` throws; `host` defaults to
`logs-01.loggly.com`; construction-time tags are run through `tagFilter`;
the log and bulk ingestion urls are `[url, 'inputs', token].join('/')`
and `[url, 'bulk', token].join('/')` under `url = 'https://' + host`. -/
def createClient (version : JSStr) (options : ClientOptions) : Except JSStr Loggly :=
  if options.subdomain.isEmpty || options.token.isEmpty then
    .error (jstr "options.subdomain and options.token are required.")
  else
    let host := if options.host.isEmpty then jstr "logs-01.loggly.com" else options.host
    let url := jstr "https://" ++ host
    .ok {
      subdomain := options.subdomain
      token := options.token
      host := host
      json := options.json
      userAgent := jstr "node-loggly " ++ version
      useTagHeader := options.useTagHeader.getD true
      isBulk := options.isBulk
      appName := if options.appName.isEmpty then none else some options.appName
      tags := options.tags.map tagFilter
      urlLog := joinWith [47] [url, jstr "inputs", options.token]
      urlBulk := joinWith [47] [url, jstr "bulk", options.token] }

/-- Request body handed to the delivery layer: a single serialized text,
or (bulk mode) the ordered sequence produced by `msg.map(serialize)`. -/
inductive Body where
  | single (s : JSStr)
  | bulk (items : List JSStr)
  deriving DecidableEq, Repr

/-- Whether a body is the bulk-mode ordered sequence. -/
def isBulkBody : Body → Bool
  | .bulk _ => true
  | .single _ => false

/-- The `logOptions` request description assembled by `log` (client.js
lines 151-165); `proxy`/`bufferOptions`/`networkErrorsOnConsole` are
opaque pass-through and omitted. -/
structure LogOptions where
  uri : JSStr
  method : JSStr
  body : Body
  isBulk : Bool
  headers : List (JSStr × JSStr)
  deriving DecidableEq, Repr

/-- The `{message: msg}` envelope built in `serialize` (client.js line
145) for a non-object message, as a heap value. -/
def envelope (s : JSStr) : JSVal :=
  ⟨[.nstr s, .nobj [(jstr "message", 0)]], 1⟩

/-- The inner `serialize` closure of `log` (client.js lines 140-147).
`commonSerialize` stands for `common.serialize` from lib/loggly/common.js,
which is not part of the analyzed source; it is kept as an explicit
function argument. A non-string non-object primitive cannot reach this
point in the model and is mapped to the string branch on empty text. -/
def serialize (c : Loggly) (commonSerialize : JSVal → JSStr) (v : JSVal) : JSStr :=
  if isObjectVal v then
    if c.json then stringify v else commonSerialize v
  else
    match strOf v with
    | some s => if c.json then stringify (envelope s) else s
    | none => if c.json then stringify (envelope []) else []

/-- Lines 119-127 of `log`: an object message is stringified with the raw
`JSON.stringify` (which throws on circular structures — the safe wrapper
is not used here) and truncated; a string message is truncated directly.
When truncation fired the message is replaced by the truncated string,
otherwise it is left as-is. -/
def truncatePrePass (msg : JSVal) : Except JsonErr JSVal :=
  if isObjectVal msg then do
    let stringifiedMessage ← jsonStringifyVal msg
    let t := truncateLargeMessage stringifiedMessage
    return (if t.isMessageTruncated then strVal t.message else msg)
  else
    match strOf msg with
    | some s =>
      let t := truncateLargeMessage s
      .ok (if t.isMessageTruncated then strVal t.message else msg)
    | none => .ok msg

/-- `msg.map(serialize)` on a bulk array (client.js line 149, true
branch). Only called when `isArrayVal msg` holds. -/
def bulkBody (c : Loggly) (commonSerialize : JSVal → JSStr) (v : JSVal) : Body :=
  match v.heap.get? v.root with
  | some (.narr elems) =>
    .bulk (elems.map (fun j => serialize c commonSerialize ⟨v.heap, j⟩))
  | _ => .single (serialize c commonSerialize v)

/-- The headers object built at client.js lines 159-164. -/
def Loggly.baseHeaders (c : Loggly) : List (JSStr × JSStr) :=
  [(jstr "host", c.host),
   (jstr "accept", jstr "*/*"),
   (jstr "user-agent", c.userAgent),
   (jstr "content-type", if c.json then jstr "application/json" else jstr "text/plain")]

/-- Lines 171-173 of `log`: merge call-supplied tags with the
construction-time tags. `none` models a null/absent tags argument (an
explicitly passed empty array is `some []`, which is truthy in JS). -/
def Loggly.effectiveTags (c : Loggly) (tags : Option (List JSStr)) : Option (List JSStr) :=
  match tags with
  | some t =>
    some (match c.tags with
      | some ct => ct ++ tagFilter t
      | none => tagFilter t)
  | none => c.tags

/-- Lines 181-189 of `log`: when the merged tag list is truthy and
non-empty, attach it as the `X-LOGGLY-TAG` header (header mode) or append
`'/tag/' + tags.join(',') + '/'` to the uri. -/
def attachTags (c : Loggly) (opts : LogOptions) (tags : Option (List JSStr)) : LogOptions :=
  match tags with
  | some ts =>
    if ts.length ≠ 0 then
      if c.useTagHeader then
        { opts with headers := opts.headers ++ [(jstr "X-LOGGLY-TAG", joinWith [44] ts)] }
      else
        { opts with uri := opts.uri ++ jstr "/tag/" ++ joinWith [44] ts ++ jstr "/" }
    else opts
  | none => opts

/-- Lines 191-193 of `log`: attach the `appName` header when configured. -/
def attachAppName (c : Loggly) (opts : LogOptions) : LogOptions :=
  match c.appName with
  | some a => { opts with headers := opts.headers ++ [(jstr "appName", a)] }
  | none => opts

/-- `Loggly.prototype.log` (client.js lines 115-215) up to the hand-off of
`logOptions` to `common.loggly`: truncation pre-pass, serialization (bulk
arrays element-wise), request assembly, tag merge/attachment and appName
header. The error case is the uncaught `JSON.stringify` TypeError of the
pre-pass. The callback-shifting of lines 128-131 only affects which
argument is treated as the callback, not the assembled request, and the
completion handler is modelled separately by `handleLogResponse`. -/
def Loggly.log (c : Loggly) (commonSerialize : JSVal → JSStr) (msg : JSVal)
    (tags : Option (List JSStr)) : Except JsonErr LogOptions := do
  let msg ← truncatePrePass msg
  let body :=
    if c.isBulk && isArrayVal msg then bulkBody c commonSerialize msg
    else Body.single (serialize c commonSerialize msg)
  let logOptions : LogOptions := {
    uri := if c.isBulk then c.urlBulk else c.urlLog
    method := jstr "POST"
    body := body
    isBulk := c.isBulk
    headers := c.baseHeaders }
  let tags := c.effectiveTags tags
  let logOptions := attachTags c logOptions tags
  let logOptions := attachAppName c logOptions
  return logOptions

instance exceptDecEq {α β : Type} [DecidableEq α] [DecidableEq β] :
    DecidableEq (Except α β)
  | .ok a, .ok b =>
    if h : a = b then .isTrue (congrArg Except.ok h)
    else .isFalse (fun he => h (Except.ok.inj he))
  | .ok _, .error _ => .isFalse (fun he => Except.noConfusion he)
  | .error _, .ok _ => .isFalse (fun he => Except.noConfusion he)
  | .error a, .error b =>
    if h : a = b then .isTrue (congrArg Except.error h)
    else .isFalse (fun he => h (Except.error.inj he))

/-- Observable effects of the completion closure (client.js lines
195-212): an optional `'log'` event emission, an optional callback
invocation (`.ok` for `callback(null, result)`, `.error` for
`callback(new Error(...))`) and an optional console line. -/
structure CompletionOutcome where
  emitted : Option JSVal
  callbackCall : Option (Except JSStr JSVal)
  consoleLine : Option JSStr
  deriving DecidableEq, Repr

/-- The completion closure passed to `common.loggly` (client.js lines
195-212). `parse` stands for the `JSON.parse` builtin (`.error` models a
thrown SyntaxError, caught by the surrounding try/catch). `hasCallback`
models whether the caller supplied a callback. The source compares
`res.statusCode.toString() === '200'`; on natural-number status codes
decimal printing is injective, so this is the test `statusCode = 200`. -/
def handleLogResponse (parse : JSStr → Except JSStr JSVal) (hasCallback : Bool)
    (statusCode : Nat) (statusMessage : JSStr) (body : JSStr) : CompletionOutcome :=
  if !body.isEmpty && statusCode = 200 then
    match parse body with
    | .ok result =>
      { emitted := some result
        callbackCall := if hasCallback then some (.ok result) else none
        consoleLine := none }
    | .error ex =>
      { emitted := none
        callbackCall :=
          if hasCallback then
            some (.error (jstr "Unspecified error from Loggly: " ++ ex))
          else none
        consoleLine := none }
  else
    { emitted := none
      callbackCall := none
      consoleLine := some (jstr "Error Code- " ++ natToStr statusCode ++
        jstr " \"" ++ statusMessage ++ jstr "\"") }

/-! ## Concrete inputs, auxiliary definitions and result extractors -/

/-- Spec-side stand-in for `common.serialize` (lib/loggly/common.js is not
part of the analyzed source); theorems that depend on its output are
quantified over it instead. -/
def emptySerialize : JSVal → JSStr := fun _ => []

/-- The body of an assembled request, when assembly succeeded. -/
def logBody : Except JsonErr LogOptions → Option Body
  | .ok o => some o.body
  | .error _ => none

/-- The destination uri of an assembled request, when assembly succeeded. -/
def logUri : Except JsonErr LogOptions → Option JSStr
  | .ok o => some o.uri
  | .error _ => none

/-- An empty request description, used as a fallback when extracting the
successful result of `log` at concrete inputs. -/
def dfltOpts : LogOptions :=
  { uri := [], method := [], body := .single [], isBulk := false, headers := [] }

/-- The `appName` header entries `attachAppName` appends. -/
def appNameHeader (c : Loggly) : List (JSStr × JSStr) :=
  match c.appName with
  | some a => [(jstr "appName", a)]
  | none => []

/-- A plain-text, single-event client (fields as built by `createClient`
for `subdomain "sub"`, `token "tok"` and defaults). -/
def plainClient : Loggly :=
  { subdomain := jstr "sub"
    token := jstr "tok"
    host := jstr "logs-01.loggly.com"
    json := false
    userAgent := jstr "node-loggly 3.0.1"
    useTagHeader := true
    isBulk := false
    appName := none
    tags := none
    urlLog := jstr "https://logs-01.loggly.com/inputs/tok"
    urlBulk := jstr "https://logs-01.loggly.com/bulk/tok" }

/-- The same client in structured (json) mode. -/
def jsonClient : Loggly := { plainClient with json := true }

/-- The same client in bulk mode (plain text). -/
def bulkPlainClient : Loggly := { plainClient with isBulk := true }

/-- 1,000,001 ascii `a` characters: one byte over `EVENT_SIZE`. -/
def bigAsciiMsg : JSStr := List.replicate 1000001 97

/-- Input refuting byte-exact truncation: 500001 copies of code unit
U+0100, each of which encodes to two UTF-8 bytes. -/
def multibyteMsg : JSStr := List.replicate 500001 256

/-- The validity predicate the code actually enforces, stated from the
amended claim: non-empty, at most 64 code units, and the first two code
units are a word character followed by a word character, hyphen,
underscore or dot; everything after the second code unit is
unconstrained, because the regex test is anchored at the start only. -/
def tagAccepted (t : JSStr) : Bool :=
  !t.isEmpty && t.length ≤ 64 &&
    (match t.get? 0 with
     | some u => isWordUnit u
     | none => false) &&
    (match t.get? 1 with
     | some u => isTagClassUnit u
     | none => false)

/-- The canonical cyclic value: an object whose field `a` refers back to
the object itself. -/
def cyclicSelf : JSVal := ⟨[.nobj [(jstr "a", 0)]], 0⟩

/-- The structured message `\x7ba: "aaa…a"\x7d` whose JSON encoding is
1,000,009 bytes — just over `EVENT_SIZE`. -/
def bigObj : JSVal := ⟨[.nstr bigAsciiMsg, .nobj [(jstr "a", 0)]], 1⟩

/-- The bulk array `["aaa…a"]` whose JSON encoding is 1,000,005 bytes. -/
def bigArr : JSVal := ⟨[.nstr bigAsciiMsg, .narr [0]], 1⟩

/-- JSON encoding of `bigObj` (the claim's as-is body). -/
def bigObjAsIs : JSStr :=
  [123, 34, 97, 34, 58, 34] ++ List.replicate 1000001 97 ++ [34, 125]

/-- The body `log` actually produces for `bigObj` in json mode: the
truncated JSON text re-wrapped in the `\x7b"message": …\x7d` envelope
(with the quotes of the truncated JSON escaped). -/
def bigObjBody : JSStr :=
  [123, 34, 109, 101, 115, 115, 97, 103, 101, 34, 58, 34,
   123, 92, 34, 97, 92, 34, 58, 92, 34] ++ List.replicate 999994 97 ++ [34, 125]

/-- The body `log` produces for the oversized string in json mode. -/
def bigStrBody : JSStr :=
  [123, 34, 109, 101, 115, 115, 97, 103, 101, 34, 58, 34] ++
    List.replicate 1000000 97 ++ [34, 125]

/-- The single (non-bulk!) body `log` produces for `bigArr` in bulk plain
mode: the first `EVENT_SIZE` code units of the array's JSON encoding. -/
def bigArrBody : JSStr := [91, 34] ++ List.replicate 999998 97

/-- Heap for the bulk array `["a", "b"]`. -/
def abHeap : List JNode := [.nstr [97], .nstr [98], .narr [0, 1]]

/-- The small structured message `\x7bk: "v"\x7d`. -/
def kvObj : JSVal := ⟨[.nstr [118], .nobj [(jstr "k", 0)]], 1⟩

/-- A client configured for url-path tagging (`useTagHeader: false`). -/
def pathTagClient : Loggly := { plainClient with useTagHeader := false }

/-- A client with construction-time default tags and an app name. -/
def c8client : Loggly :=
  { plainClient with tags := some [jstr "env-1"], appName := some (jstr "myapp") }

/-- Constructor options for the request-shape witness. -/
def c9options : ClientOptions :=
  { subdomain := jstr "sub"
    token := jstr "tok"
    host := []
    json := false
    useTagHeader := none
    isBulk := false
    tags := none
    appName := [] }

/-- The client `createClient` builds from `c9options` (checked by the
witness through `createClient` itself). -/
def c9client : Loggly :=
  { plainClient with userAgent := jstr "node-loggly " ++ jstr "1.0" }

/-- A `JSON.parse` stand-in that always succeeds with a fixed value. -/
def parseFixed : JSStr → Except JSStr JSVal := fun _ => .ok (strVal [120])

/-- A `JSON.parse` stand-in that always throws, echoing the body text. -/
def parseFail : JSStr → Except JSStr JSVal := fun s => .error s

/-- What claim C8 asserts of one assembled request: the effective tag set
is the construction-time resolved tags concatenated with the resolved
call tags (just the former when no call tags are given), and a non-empty
effective set is attached as the comma-joined `X-LOGGLY-TAG` header in
header mode or as a `/tag/…/` uri segment otherwise, while an empty or
absent set leaves headers and uri untouched. -/
def TagAttachmentSpec (c : Loggly) (tags : Option (List JSStr)) (opts : LogOptions) : Prop :=
  (∀ t, tags = some t →
     c.effectiveTags tags = some ((c.tags.getD []) ++ tagFilter t)) ∧
  (tags = none → c.effectiveTags tags = c.tags) ∧
  (∀ ts, c.effectiveTags tags = some ts → ts ≠ [] →
     (c.useTagHeader = true →
        opts.headers =
          c.baseHeaders ++ [(jstr "X-LOGGLY-TAG", joinWith [44] ts)] ++ appNameHeader c ∧
        opts.uri = (if c.isBulk then c.urlBulk else c.urlLog)) ∧
     (c.useTagHeader = false →
        opts.uri =
          (if c.isBulk then c.urlBulk else c.urlLog) ++
            jstr "/tag/" ++ joinWith [44] ts ++ jstr "/" ∧
        opts.headers = c.baseHeaders ++ appNameHeader c)) ∧
  ((c.effectiveTags tags = none ∨ c.effectiveTags tags = some []) →
     opts.headers = c.baseHeaders ++ appNameHeader c ∧
     opts.uri = (if c.isBulk then c.urlBulk else c.urlLog))

/-- What claim C9 (amended) asserts of one assembled request: method POST,
the content-type matching the format mode, and a destination uri equal to
the bulk or single ingestion url — followed by a `/tag/…/` segment
exactly when url-path tagging applies with a non-empty effective set. -/
def RequestShapeSpec (c : Loggly) (tags : Option (List JSStr)) (opts : LogOptions) : Prop :=
  opts.method = jstr "POST" ∧
  (jstr "content-type",
    if c.json then jstr "application/json" else jstr "text/plain") ∈ opts.headers ∧
  ∃ tagSeg, opts.uri =
      (if c.isBulk then jstr "https://" ++ c.host ++ jstr "/bulk/" ++ c.token
       else jstr "https://" ++ c.host ++ jstr "/inputs/" ++ c.token) ++ tagSeg ∧
    (tagSeg = [] ∨
      (c.useTagHeader = false ∧ ∃ ts, c.effectiveTags tags = some ts ∧ ts ≠ [] ∧
        tagSeg = jstr "/tag/" ++ joinWith [44] ts ++ jstr "/"))

/-! ## Byte-length and escaping lemmas -/

theorem byteLength_nil : byteLength [] = 0 := rfl

theorem byteLength_cons_ascii {u : Nat} (rest : JSStr) (h : u < 128) :
    byteLength (u :: rest) = 1 + byteLength rest := by
  rw [byteLength.eq_def]
  simp [h]

theorem byteLength_append_ascii (s t : JSStr) (h : ∀ u ∈ s, u < 128) :
    byteLength (s ++ t) = s.length + byteLength t := by
  induction s with
  | nil => simp [byteLength_nil]
  | cons u rest ih =>
    have hu : u < 128 := h u (List.mem_cons_self u rest)
    have hrest : ∀ v ∈ rest, v < 128 := fun v hv => h v (List.mem_cons_of_mem u hv)
    simp only [List.cons_append, byteLength_cons_ascii _ hu, ih hrest, List.length_cons]
    omega

theorem byteLength_ascii (s : JSStr) (h : ∀ u ∈ s, u < 128) :
    byteLength s = s.length := by
  have := byteLength_append_ascii s [] h
  simpa using this

theorem byteLength_cons_twoByte {u : Nat} (rest : JSStr) (h1 : 128 ≤ u) (h2 : u < 2048) :
    byteLength (u :: rest) = 2 + byteLength rest := by
  rw [byteLength.eq_def]
  have hnot : ¬ u < 128 := by omega
  simp [hnot, h2]

theorem byteLength_replicate_twoByte {u : Nat} (n : Nat) (h1 : 128 ≤ u) (h2 : u < 2048) :
    byteLength (List.replicate n u) = 2 * n := by
  induction n with
  | zero => rfl
  | succ k ih =>
    rw [List.replicate_succ, byteLength_cons_twoByte _ h1 h2, ih]
    omega

theorem length_le_byteLength : (s : JSStr) → s.length ≤ byteLength s
  | [] => Nat.le_refl 0
  | u :: rest => by
    rw [byteLength.eq_def]
    by_cases h1 : u < 128
    · have := length_le_byteLength rest
      simp [h1]; omega
    · by_cases h2 : u < 2048
      · have := length_le_byteLength rest
        simp [h1, h2]; omega
      · by_cases h3 : 55296 ≤ u ∧ u ≤ 56319
        · match rest with
          | [] => simp [h1, h2, h3]
          | v :: rest2 =>
            by_cases h4 : 56320 ≤ v ∧ v ≤ 57343
            · have := length_le_byteLength rest2
              simp [h1, h2, h3, h4]; omega
            · have := length_le_byteLength (v :: rest2)
              simp only [List.length_cons] at this ⊢
              simp [h1, h2, h3, h4]
              omega
        · have := length_le_byteLength rest
          simp [h1, h2, h3]; omega

theorem escapeUnit_plain {u : Nat} (h32 : 32 ≤ u) (hq : u ≠ 34) (hb : u ≠ 92) :
    escapeUnit u = [u] := by
  unfold escapeUnit
  have h8 : u ≠ 8 := by omega
  have h9 : u ≠ 9 := by omega
  have h10 : u ≠ 10 := by omega
  have h12 : u ≠ 12 := by omega
  have h13 : u ≠ 13 := by omega
  have hlt : ¬ u < 32 := by omega
  simp [hq, hb, h8, h9, h10, h12, h13, hlt]

theorem quoteStr_plain (s : JSStr)
    (h : ∀ u ∈ s, 32 ≤ u ∧ u ≠ 34 ∧ u ≠ 92) :
    quoteStr s = [34] ++ s ++ [34] := by
  unfold quoteStr
  congr 1
  · congr 1
    induction s with
    | nil => rfl
    | cons u rest ih =>
      have hu := h u (List.mem_cons_self u rest)
      have hrest : ∀ v ∈ rest, 32 ≤ v ∧ v ≠ 34 ∧ v ≠ 92 :=
        fun v hv => h v (List.mem_cons_of_mem u hv)
      simp [escapeUnit_plain hu.1 hu.2.1 hu.2.2, ih hrest]

theorem mem_replicate_bound {u x n : Nat} (hx : x ∈ List.replicate n u) : x = u :=
  (List.eq_of_mem_replicate hx)

theorem truncateLargeMessage_of_gt {m : JSStr} (h : EVENT_SIZE < byteLength m) :
    truncateLargeMessage m = ⟨m.take EVENT_SIZE, true⟩ := by
  simp only [truncateLargeMessage]
  rw [if_pos h]

theorem truncateLargeMessage_of_le {m : JSStr} (h : byteLength m ≤ EVENT_SIZE) :
    truncateLargeMessage m = ⟨m, false⟩ := by
  simp only [truncateLargeMessage]
  rw [if_neg (show ¬ byteLength m > EVENT_SIZE by omega)]

theorem escape_plain_flatten (s : JSStr)
    (h : ∀ u ∈ s, 32 ≤ u ∧ u ≠ 34 ∧ u ≠ 92) :
    (s.map escapeUnit).flatten = s := by
  induction s with
  | nil => rfl
  | cons u rest ih =>
    have hu := h u (List.mem_cons_self u rest)
    have hrest : ∀ v ∈ rest, 32 ≤ v ∧ v ≠ 34 ∧ v ≠ 92 :=
      fun v hv => h v (List.mem_cons_of_mem u hv)
    simp [escapeUnit_plain hu.1 hu.2.1 hu.2.2, ih hrest]

theorem escape_flatten_replicate97 (n : Nat) :
    ((List.replicate n 97).map escapeUnit).flatten = List.replicate n 97 := by
  apply escape_plain_flatten
  intro u hu
  have := mem_replicate_bound hu
  omega

theorem quoteStr_append (a b : JSStr) :
    quoteStr (a ++ b) =
      [34] ++ (a.map escapeUnit).flatten ++ ((b.map escapeUnit).flatten ++ [34]) := by
  unfold quoteStr
  simp [List.map_append, List.flatten_append, List.append_assoc]

/-! ## Evaluation lemmas for the log pipeline -/

theorem stringify_envelope (s : JSStr) :
    stringify (envelope s) =
      [123, 34, 109, 101, 115, 115, 97, 103, 101, 34, 58] ++ quoteStr s ++ [125] := rfl

theorem jsonStringify_objA (s : JSStr) :
    jsonStringifyVal ⟨[.nstr s, .nobj [(jstr "a", 0)]], 1⟩ =
      .ok ([123, 34, 97, 34, 58] ++ quoteStr s ++ [125]) := rfl

theorem jsonStringify_arrSingle (s : JSStr) :
    jsonStringifyVal ⟨[.nstr s, .narr [0]], 1⟩ =
      .ok ([91] ++ quoteStr s ++ [93]) := rfl

theorem isArrayVal_strVal (s : JSStr) : isArrayVal (strVal s) = false := rfl

theorem truncatePrePass_strVal (m : JSStr) :
    truncatePrePass (strVal m) = .ok (strVal ((truncateLargeMessage m).message)) := by
  show Except.ok (if (truncateLargeMessage m).isMessageTruncated
        then strVal (truncateLargeMessage m).message else strVal m) =
      Except.ok (strVal ((truncateLargeMessage m).message))
  by_cases h : byteLength m ≤ EVENT_SIZE
  · rw [truncateLargeMessage_of_le h]
    simp
  · rw [truncateLargeMessage_of_gt (by omega)]
    simp


theorem serialize_strVal (c : Loggly) (cs : JSVal → JSStr) (s : JSStr) :
    serialize c cs (strVal s) = if c.json then stringify (envelope s) else s := rfl

theorem log_strVal_eq (c : Loggly) (cs : JSVal → JSStr) (m : JSStr)
    (tags : Option (List JSStr)) :
    Loggly.log c cs (strVal m) tags =
      .ok (attachAppName c (attachTags c
        { uri := if c.isBulk then c.urlBulk else c.urlLog
          method := jstr "POST"
          body := .single (if c.json then stringify (envelope ((truncateLargeMessage m).message))
                           else (truncateLargeMessage m).message)
          isBulk := c.isBulk
          headers := c.baseHeaders }
        (c.effectiveTags tags))) := by
  unfold Loggly.log
  rw [truncatePrePass_strVal]
  show Except.ok (attachAppName c (attachTags c
      { uri := if c.isBulk then c.urlBulk else c.urlLog
        method := jstr "POST"
        body :=
          if c.isBulk && isArrayVal (strVal ((truncateLargeMessage m).message))
          then bulkBody c cs (strVal ((truncateLargeMessage m).message))
          else .single (serialize c cs (strVal ((truncateLargeMessage m).message)))
        isBulk := c.isBulk
        headers := c.baseHeaders }
      (c.effectiveTags tags))) = _
  rw [isArrayVal_strVal, Bool.and_false]
  rw [serialize_strVal]
  rfl

theorem attachTags_none (c : Loggly) (o : LogOptions) : attachTags c o none = o := rfl

theorem attachTags_some_nil (c : Loggly) (o : LogOptions) :
    attachTags c o (some []) = o := rfl

theorem attachTags_header (c : Loggly) (o : LogOptions) {ts : List JSStr}
    (h : ts ≠ []) (hh : c.useTagHeader = true) :
    attachTags c o (some ts) =
      { o with headers := o.headers ++ [(jstr "X-LOGGLY-TAG", joinWith [44] ts)] } := by
  simp only [attachTags]
  have hlen : ts.length ≠ 0 := by
    intro h0
    exact h (List.eq_nil_of_length_eq_zero h0)
  rw [if_pos hlen, if_pos hh]

theorem attachTags_path (c : Loggly) (o : LogOptions) {ts : List JSStr}
    (h : ts ≠ []) (hh : c.useTagHeader = false) :
    attachTags c o (some ts) =
      { o with uri := o.uri ++ jstr "/tag/" ++ joinWith [44] ts ++ jstr "/" } := by
  simp only [attachTags]
  have hlen : ts.length ≠ 0 := by
    intro h0
    exact h (List.eq_nil_of_length_eq_zero h0)
  rw [if_pos hlen, if_neg (by simp [hh])]

theorem attachTags_body (c : Loggly) (o : LogOptions) (t : Option (List JSStr)) :
    (attachTags c o t).body = o.body := by
  simp only [attachTags]
  cases t with
  | none => rfl
  | some ts =>
    by_cases h : ts.length ≠ 0
    · by_cases h2 : c.useTagHeader <;> simp [h, h2]
    · simp [h]

theorem attachTags_method (c : Loggly) (o : LogOptions) (t : Option (List JSStr)) :
    (attachTags c o t).method = o.method := by
  simp only [attachTags]
  cases t with
  | none => rfl
  | some ts =>
    by_cases h : ts.length ≠ 0
    · by_cases h2 : c.useTagHeader <;> simp [h, h2]
    · simp [h]

theorem attachAppName_headers (c : Loggly) (o : LogOptions) :
    (attachAppName c o).headers = o.headers ++ appNameHeader c := by
  unfold attachAppName appNameHeader
  cases c.appName <;> simp

theorem attachAppName_uri (c : Loggly) (o : LogOptions) :
    (attachAppName c o).uri = o.uri := by
  unfold attachAppName
  cases c.appName <;> simp

theorem attachAppName_body (c : Loggly) (o : LogOptions) :
    (attachAppName c o).body = o.body := by
  unfold attachAppName
  cases c.appName <;> simp

theorem attachAppName_method (c : Loggly) (o : LogOptions) :
    (attachAppName c o).method = o.method := by
  unfold attachAppName
  cases c.appName <;> simp

/-! ## C1 — byte-exact truncation -/

/-- C1 (code evaluated at the failing input): `multibyteMsg` has byte
length 1,000,002, which exceeds `EVENT_SIZE`, so `truncateLargeMessage`
reports `isMessageTruncated = true`; but `slice(0, EVENT_SIZE)` counts
UTF-16 code units, of which there are only 500,001, so the message comes
back entirely unchanged and its byte length is still 1,000,002 — not
exactly `EVENT_SIZE` as the claim requires. -/
theorem truncate_multibyte_still_oversized :
    byteLength multibyteMsg = 1000002 ∧
    (truncateLargeMessage multibyteMsg).isMessageTruncated = true ∧
    (truncateLargeMessage multibyteMsg).message = multibyteMsg ∧
    byteLength (truncateLargeMessage multibyteMsg).message = 1000002 ∧
    EVENT_SIZE < 1000002 := by
  have hbl : byteLength multibyteMsg = 1000002 := by
    show byteLength (List.replicate 500001 256) = 1000002
    rw [byteLength_replicate_twoByte 500001 (by omega) (by omega)]
  have hsz : EVENT_SIZE < 1000002 := by norm_num [EVENT_SIZE]
  have hgt : EVENT_SIZE < byteLength multibyteMsg := by omega
  have htake : multibyteMsg.take EVENT_SIZE = multibyteMsg := by
    apply List.take_of_length_le
    show (List.replicate 500001 256).length ≤ EVENT_SIZE
    rw [List.length_replicate]
    norm_num [EVENT_SIZE]
  have hres : truncateLargeMessage multibyteMsg =
      { message := multibyteMsg, isMessageTruncated := true } := by
    rw [truncateLargeMessage_of_gt hgt, htake]
  exact ⟨hbl, by rw [hres], by rw [hres], by rw [hres]; exact hbl, hsz⟩

/-! ## C3 — tag filtering -/

/-- C3 counterexample: the regex `/^[\w\d][\w\d-_.]+/` is only anchored at
the start, so `"bad tag!"` passes the test (its first two characters are
word characters) and is kept — `resolve(["ok-1", "bad tag!"])` does not
yield `["ok-1"]`. -/
theorem tagFilter_keeps_bad_tag :
    tagFilter [jstr "ok-1", jstr "bad tag!"] = [jstr "ok-1", jstr "bad tag!"] ∧
    tagFilter [jstr "ok-1", jstr "bad tag!"] ≠ [jstr "ok-1"] := by
  constructor
  · decide
  · decide

/-- C3 (amended): `tagFilter` returns exactly the candidates satisfying
`tagAccepted` — the start-anchored two-character prefix test with the
64-unit length cap — in input order (the result is a sublist of the
input). -/
theorem tagFilter_eq_filter_accepted (ts : List JSStr) :
    tagFilter ts = ts.filter tagAccepted ∧ (tagFilter ts).Sublist ts := by
  constructor
  · unfold tagFilter
    apply List.filter_congr
    intro t _
    match t with
    | [] => rfl
    | [u] => simp [isSolidTest, tagAccepted]
    | u0 :: u1 :: rest =>
      simp [isSolidTest, tagAccepted, List.isEmpty, Bool.and_assoc, Bool.and_comm,
        Bool.and_left_comm]
  · unfold tagFilter
    exact List.filter_sublist ts

/-! ## C4 — cyclic structured messages -/

/-- C4 (code evaluated at the failing input): for every client
configuration, every stand-in for `common.serialize` and every tags
argument, `log` on the self-referential object raises the circular
structure TypeError. Line 121 of client.js calls the bare `JSON.stringify`
for the truncation pre-pass, outside any try/catch, so the cycle-safe
fallback inside `stringify` (lines 20-27) is never reached. -/
theorem log_throws_on_cyclic_message (c : Loggly) (cs : JSVal → JSStr)
    (tags : Option (List JSStr)) :
    Loggly.log c cs cyclicSelf tags = .error .circular := rfl

/-- The fallback encoder itself would have produced a value for the same
cyclic input (the `noop` decycler drops the circular property, giving
`\x7b\x7d`), confirming that the failure is in the pre-pass call site and
not in the fallback. -/
theorem stringify_handles_cyclic :
    stringify cyclicSelf = [123, 125] := by decide

/-! ## Object-path lemmas for log -/

theorem stringify_of_ok {v : JSVal} {s : JSStr} (henc : jsonStringifyVal v = .ok s) :
    stringify v = s := by
  unfold stringify
  rw [henc]

theorem serialize_object_json (c : Loggly) (cs : JSVal → JSStr) (v : JSVal)
    (hobj : isObjectVal v = true) (hjson : c.json = true) :
    serialize c cs v = stringify v := by
  unfold serialize
  rw [hobj, hjson]
  simp

theorem truncatePrePass_object_small (v : JSVal) (s : JSStr)
    (hobj : isObjectVal v = true) (henc : jsonStringifyVal v = .ok s)
    (hsize : byteLength s ≤ EVENT_SIZE) :
    truncatePrePass v = .ok v := by
  unfold truncatePrePass
  rw [hobj, henc]
  simp only [if_true, Bool.true_eq]
  show Except.ok (if (truncateLargeMessage s).isMessageTruncated
      then strVal (truncateLargeMessage s).message else v) = Except.ok v
  rw [truncateLargeMessage_of_le hsize]
  simp

theorem truncatePrePass_object_big (v : JSVal) (s : JSStr)
    (hobj : isObjectVal v = true) (henc : jsonStringifyVal v = .ok s)
    (hsize : EVENT_SIZE < byteLength s) :
    truncatePrePass v = .ok (strVal (s.take EVENT_SIZE)) := by
  unfold truncatePrePass
  rw [hobj, henc]
  simp only [if_true, Bool.true_eq]
  show Except.ok (if (truncateLargeMessage s).isMessageTruncated
      then strVal (truncateLargeMessage s).message else v) =
    Except.ok (strVal (s.take EVENT_SIZE))
  rw [truncateLargeMessage_of_gt hsize]
  simp

/-! ## C2 — body size invariant -/

/-- C2 (amended): for a string message in plain mode, `log` always
succeeds and the produced single body is bounded by `EVENT_SIZE` in
UTF-16 code units; its byte length is bounded by `EVENT_SIZE` whenever
the message is single-byte (ascii) text. (The byte bound fails in general
— see the counterexample — because slicing counts code units and because
structured mode adds the `\x7b"message": …\x7d` envelope after
truncation.) An oversized source is truncated, never rejected. -/
theorem log_string_body_bounded (c : Loggly) (cs : JSVal → JSStr) (m : JSStr)
    (tags : Option (List JSStr)) (hjson : c.json = false) :
    ∃ opts, Loggly.log c cs (strVal m) tags = .ok opts ∧
      ∃ b, opts.body = .single b ∧ b.length ≤ EVENT_SIZE ∧
        ((∀ u ∈ m, u < 128) → byteLength b ≤ EVENT_SIZE) := by
  refine ⟨_, log_strVal_eq c cs m tags, (truncateLargeMessage m).message, ?_, ?_, ?_⟩
  · rw [attachAppName_body, attachTags_body]
    simp [hjson]
  · by_cases h : byteLength m ≤ EVENT_SIZE
    · rw [truncateLargeMessage_of_le h]
      exact le_trans (length_le_byteLength m) h
    · rw [truncateLargeMessage_of_gt (by omega)]
      simp only [List.length_take]
      omega
  · intro hascii
    by_cases h : byteLength m ≤ EVENT_SIZE
    · rw [truncateLargeMessage_of_le h]
      exact h
    · rw [truncateLargeMessage_of_gt (by omega)]
      have hsub : ∀ u ∈ m.take EVENT_SIZE, u < 128 :=
        fun u hu => hascii u (List.take_subset _ _ hu)
      rw [byteLength_ascii _ hsub]
      simp only [List.length_take]
      omega

/-- Witness for the amended C2 theorem at a concrete client and message. -/
theorem log_string_body_bounded_witness :
    ∃ opts, Loggly.log plainClient emptySerialize (strVal (jstr "hi")) none = .ok opts ∧
      ∃ b, opts.body = .single b ∧ b.length ≤ EVENT_SIZE ∧
        ((∀ u ∈ jstr "hi", u < 128) → byteLength b ≤ EVENT_SIZE) :=
  log_string_body_bounded plainClient emptySerialize (jstr "hi") none rfl

/-- The body of the request assembled for a string message: the
(possibly-truncated) text, wrapped in the json envelope in structured
mode. -/
theorem logBody_strVal (c : Loggly) (cs : JSVal → JSStr) (m : JSStr)
    (tags : Option (List JSStr)) :
    logBody (Loggly.log c cs (strVal m) tags) =
      some (.single (if c.json then stringify (envelope ((truncateLargeMessage m).message))
                     else (truncateLargeMessage m).message)) := by
  rw [log_strVal_eq]
  show some (attachAppName c (attachTags c _ _)).body = _
  rw [attachAppName_body, attachTags_body]

/-- Taking `EVENT_SIZE` code units of `a ++ "aa…a" ++ b` cuts inside the
replicated block when `a.length + k = EVENT_SIZE` with `k ≤ n`. -/
theorem take_append_replicate (a b : JSStr) (n k : Nat)
    (h : a.length + k = EVENT_SIZE) (hk : k ≤ n) :
    (a ++ List.replicate n 97 ++ b).take EVENT_SIZE = a ++ List.replicate k 97 := by
  rw [List.take_append_of_le_length
    (by simp only [List.length_append, List.length_replicate]; omega)]
  rw [List.take_append_eq_append_take]
  rw [List.take_of_length_le (by omega)]
  congr 1
  have hsub : EVENT_SIZE - a.length = k := by omega
  rw [hsub, List.take_replicate, Nat.min_eq_left hk]

/-- Byte length of `a ++ "aa…a" ++ b` for single-byte `a` and `b`. -/
theorem byteLength_append_replicate (a b : JSStr) (n : Nat)
    (ha : ∀ u ∈ a, u < 128) (hb : ∀ u ∈ b, u < 128) :
    byteLength (a ++ List.replicate n 97 ++ b) = a.length + n + b.length := by
  have h1 : ∀ u ∈ a ++ List.replicate n 97, u < 128 := by
    intro u hu
    rcases List.mem_append.mp hu with h | h
    · exact ha u h
    · have := mem_replicate_bound h
      omega
  rw [byteLength_append_ascii _ _ h1, byteLength_ascii _ hb]
  simp only [List.length_append, List.length_replicate]

/-- The envelope body for a truncated run of `a`s, fully assembled. -/
theorem envelope_rep97 (n : Nat) :
    stringify (envelope (List.replicate n 97)) =
      [123, 34, 109, 101, 115, 115, 97, 103, 101, 34, 58, 34] ++
        List.replicate n 97 ++ [34, 125] := by
  have hrep : ∀ u ∈ (List.replicate n 97 : JSStr), 32 ≤ u ∧ u ≠ 34 ∧ u ≠ 92 := by
    intro u hu
    have := mem_replicate_bound hu
    omega
  rw [stringify_envelope, quoteStr_plain _ hrep]
  simp [List.append_assoc]

/-- C2 counterexample: the ascii message of 1,000,001 `a`s is truncated to
1,000,000 code units, but structured mode then wraps the truncated text in
the `\x7b"message": …\x7d` envelope, so the body handed to the delivery
layer is 1,000,014 bytes — over the configured maximum. -/
theorem json_wrap_exceeds_limit :
    logBody (Loggly.log jsonClient emptySerialize (strVal bigAsciiMsg) none) =
      some (.single bigStrBody) ∧
    byteLength bigStrBody = 1000014 ∧
    EVENT_SIZE < 1000014 := by
  have hascii : ∀ u ∈ (List.replicate 1000001 97 : JSStr), u < 128 := by
    intro u hu
    have := mem_replicate_bound hu
    omega
  have hbl : byteLength bigAsciiMsg = 1000001 := by
    show byteLength (List.replicate 1000001 97) = 1000001
    rw [byteLength_ascii _ hascii, List.length_replicate]
  have htr : truncateLargeMessage bigAsciiMsg =
      ⟨List.replicate 1000000 97, true⟩ := by
    rw [truncateLargeMessage_of_gt (by rw [hbl]; norm_num [EVENT_SIZE])]
    show TruncResult.mk ((List.replicate 1000001 97).take EVENT_SIZE) true = _
    rw [List.take_replicate]
    norm_num [EVENT_SIZE]
  refine ⟨?_, ?_, by norm_num [EVENT_SIZE]⟩
  · calc logBody (Loggly.log jsonClient emptySerialize (strVal bigAsciiMsg) none)
        = some (.single (if jsonClient.json then
            stringify (envelope ((truncateLargeMessage bigAsciiMsg).message))
          else (truncateLargeMessage bigAsciiMsg).message)) :=
          logBody_strVal jsonClient emptySerialize bigAsciiMsg none
      _ = some (.single (stringify (envelope (List.replicate 1000000 97)))) := by
          rw [htr]
          rfl
      _ = some (.single bigStrBody) := by
          rw [envelope_rep97]
          rfl
  · show byteLength ([123, 34, 109, 101, 115, 115, 97, 103, 101, 34, 58, 34] ++
        List.replicate 1000000 97 ++ [34, 125]) = 1000014
    rw [byteLength_append_replicate _ _ _ (by decide) (by decide)]
    decide

/-! ## C5 — serialization modes -/

theorem log_object_small_eq (c : Loggly) (cs : JSVal → JSStr) (v : JSVal) (s : JSStr)
    (tags : Option (List JSStr))
    (hobj : isObjectVal v = true) (henc : jsonStringifyVal v = .ok s)
    (hsize : byteLength s ≤ EVENT_SIZE) (hbulk : c.isBulk = false) :
    Loggly.log c cs v tags =
      .ok (attachAppName c (attachTags c
        { uri := c.urlLog
          method := jstr "POST"
          body := .single (serialize c cs v)
          isBulk := c.isBulk
          headers := c.baseHeaders }
        (c.effectiveTags tags))) := by
  unfold Loggly.log
  rw [truncatePrePass_object_small v s hobj henc hsize]
  show Except.ok (attachAppName c (attachTags c
      { uri := if c.isBulk then c.urlBulk else c.urlLog
        method := jstr "POST"
        body := if c.isBulk && isArrayVal v then bulkBody c cs v
                else .single (serialize c cs v)
        isBulk := c.isBulk
        headers := c.baseHeaders }
      (c.effectiveTags tags))) = _
  rw [hbulk]
  simp

theorem log_object_big_eq (c : Loggly) (cs : JSVal → JSStr) (v : JSVal) (s : JSStr)
    (tags : Option (List JSStr))
    (hobj : isObjectVal v = true) (henc : jsonStringifyVal v = .ok s)
    (hsize : EVENT_SIZE < byteLength s) :
    Loggly.log c cs v tags =
      .ok (attachAppName c (attachTags c
        { uri := if c.isBulk then c.urlBulk else c.urlLog
          method := jstr "POST"
          body := .single (if c.json then stringify (envelope (s.take EVENT_SIZE))
                           else s.take EVENT_SIZE)
          isBulk := c.isBulk
          headers := c.baseHeaders }
        (c.effectiveTags tags))) := by
  unfold Loggly.log
  rw [truncatePrePass_object_big v s hobj henc hsize]
  show Except.ok (attachAppName c (attachTags c
      { uri := if c.isBulk then c.urlBulk else c.urlLog
        method := jstr "POST"
        body := if c.isBulk && isArrayVal (strVal (s.take EVENT_SIZE))
                then bulkBody c cs (strVal (s.take EVENT_SIZE))
                else .single (serialize c cs (strVal (s.take EVENT_SIZE)))
        isBulk := c.isBulk
        headers := c.baseHeaders }
      (c.effectiveTags tags))) = _
  rw [isArrayVal_strVal, Bool.and_false, serialize_strVal]
  rfl

theorem logBody_object_small (c : Loggly) (cs : JSVal → JSStr) (v : JSVal) (s : JSStr)
    (tags : Option (List JSStr))
    (hjson : c.json = true) (hbulk : c.isBulk = false)
    (hobj : isObjectVal v = true) (henc : jsonStringifyVal v = .ok s)
    (hsize : byteLength s ≤ EVENT_SIZE) :
    logBody (Loggly.log c cs v tags) = some (.single s) := by
  rw [log_object_small_eq c cs v s tags hobj henc hsize hbulk]
  show some (attachAppName c (attachTags c _ _)).body = _
  rw [attachAppName_body, attachTags_body]
  show some (Body.single (serialize c cs v)) = _
  rw [serialize_object_json c cs v hobj hjson, stringify_of_ok henc]

/-- C5 (amended): in structured mode a structured message whose encoding
fits in `EVENT_SIZE` is emitted as-is (never re-wrapped); a text message
is wrapped as `\x7bmessage: text\x7d` with the possibly-truncated text; in
plain mode the possibly-truncated text is emitted verbatim. (When a
structured message's encoding exceeds `EVENT_SIZE`, the truncated
encoding is re-wrapped in the envelope — see the counterexample.) -/
theorem log_body_serialization (c : Loggly) (cs : JSVal → JSStr) (v : JSVal)
    (s m : JSStr) (tags : Option (List JSStr)) :
    (c.json = true → c.isBulk = false → isObjectVal v = true →
      jsonStringifyVal v = .ok s → byteLength s ≤ EVENT_SIZE →
      logBody (Loggly.log c cs v tags) = some (.single s)) ∧
    (c.json = true →
      logBody (Loggly.log c cs (strVal m) tags) =
        some (.single (stringify (envelope ((truncateLargeMessage m).message))))) ∧
    (c.json = false →
      logBody (Loggly.log c cs (strVal m) tags) =
        some (.single ((truncateLargeMessage m).message))) := by
  refine ⟨?_, ?_, ?_⟩
  · intro hjson hbulk hobj henc hsize
    exact logBody_object_small c cs v s tags hjson hbulk hobj henc hsize
  · intro hjson
    rw [logBody_strVal, hjson]
    simp
  · intro hjson
    rw [logBody_strVal, hjson]
    simp

/-- Witness for the amended C5 theorem at concrete clients and inputs. -/
theorem log_body_serialization_witness :
    logBody (Loggly.log jsonClient emptySerialize kvObj none) =
      some (.single (jstr "\x7b\"k\":\"v\"\x7d")) ∧
    logBody (Loggly.log jsonClient emptySerialize (strVal (jstr "hi")) none) =
      some (.single (stringify (envelope ((truncateLargeMessage (jstr "hi")).message)))) ∧
    logBody (Loggly.log plainClient emptySerialize (strVal (jstr "hi")) none) =
      some (.single ((truncateLargeMessage (jstr "hi")).message)) :=
  ⟨(log_body_serialization jsonClient emptySerialize kvObj
      (jstr "\x7b\"k\":\"v\"\x7d") (jstr "hi") none).1 rfl rfl rfl (by decide) (by decide),
   (log_body_serialization jsonClient emptySerialize kvObj
      (jstr "\x7b\"k\":\"v\"\x7d") (jstr "hi") none).2.1 rfl,
   (log_body_serialization plainClient emptySerialize kvObj
      (jstr "\x7b\"k\":\"v\"\x7d") (jstr "hi") none).2.2 rfl⟩

theorem jsonStringify_objA_rep (n : Nat) :
    jsonStringifyVal ⟨[.nstr (List.replicate n 97), .nobj [(jstr "a", 0)]], 1⟩ =
      .ok ([123, 34, 97, 34, 58, 34] ++ List.replicate n 97 ++ [34, 125]) := by
  have hrep : ∀ u ∈ (List.replicate n 97 : JSStr), 32 ≤ u ∧ u ≠ 34 ∧ u ≠ 92 := by
    intro u hu
    have := mem_replicate_bound hu
    omega
  rw [jsonStringify_objA, quoteStr_plain _ hrep]
  congr 1
  simp [List.append_assoc]

theorem envelope_objPrefix_rep (n : Nat) :
    stringify (envelope ([123, 34, 97, 34, 58, 34] ++ List.replicate n 97)) =
      [123, 34, 109, 101, 115, 115, 97, 103, 101, 34, 58, 34,
       123, 92, 34, 97, 92, 34, 58, 92, 34] ++ List.replicate n 97 ++ [34, 125] := by
  rw [stringify_envelope, quoteStr_append]
  rw [show (([123, 34, 97, 34, 58, 34] : JSStr).map escapeUnit).flatten =
      [123, 92, 34, 97, 92, 34, 58, 92, 34] from by decide]
  rw [escape_flatten_replicate97]
  simp [List.append_assoc]

/-- C5 counterexample: the structured message `\x7ba: "aa…a"\x7d` (encoding
1,000,009 bytes) is not emitted as-is: the truncation pre-pass turns it
into a string, and structured mode re-wraps that truncated JSON text in
the `\x7bmessage: …\x7d` envelope, escaping its quotes. The claim says the
body equals the as-is encoding whether or not truncation occurred. -/
theorem truncated_structured_rewrapped :
    stringify bigObj = bigObjAsIs ∧
    logBody (Loggly.log jsonClient emptySerialize bigObj none) =
      some (.single bigObjBody) ∧
    bigObjBody ≠ bigObjAsIs := by
  have henc : jsonStringifyVal bigObj =
      .ok ([123, 34, 97, 34, 58, 34] ++ List.replicate 1000001 97 ++ [34, 125]) := by
    show jsonStringifyVal ⟨[.nstr (List.replicate 1000001 97), .nobj [(jstr "a", 0)]], 1⟩ = _
    rw [jsonStringify_objA_rep]
  have hbl : byteLength ([123, 34, 97, 34, 58, 34] ++
      List.replicate 1000001 97 ++ [34, 125]) = 1000009 := by
    rw [byteLength_append_replicate _ _ _ (by decide) (by decide)]
    decide
  refine ⟨?_, ?_, ?_⟩
  · show stringify bigObj =
        [123, 34, 97, 34, 58, 34] ++ List.replicate 1000001 97 ++ [34, 125]
    exact stringify_of_ok henc
  · calc logBody (Loggly.log jsonClient emptySerialize bigObj none)
        = some (.single (if jsonClient.json then
            stringify (envelope (([123, 34, 97, 34, 58, 34] ++
              List.replicate 1000001 97 ++ [34, 125]).take EVENT_SIZE))
          else ([123, 34, 97, 34, 58, 34] ++
              List.replicate 1000001 97 ++ [34, 125]).take EVENT_SIZE)) := by
          rw [log_object_big_eq jsonClient emptySerialize bigObj _ none rfl henc
            (by rw [hbl]; norm_num [EVENT_SIZE])]
          show some (attachAppName _ (attachTags _ _ _)).body = _
          rw [attachAppName_body, attachTags_body]
      _ = some (.single (stringify (envelope ([123, 34, 97, 34, 58, 34] ++
            List.replicate 999994 97)))) := by
          rw [take_append_replicate [123, 34, 97, 34, 58, 34] [34, 125]
            1000001 999994 (by decide) (by decide)]
          rfl
      _ = some (.single bigObjBody) := by
          rw [envelope_objPrefix_rep]
          rfl
  · intro heq
    have h1 : bigObjBody.length = 1000017 := by
      show ([123, 34, 109, 101, 115, 115, 97, 103, 101, 34, 58, 34,
        123, 92, 34, 97, 92, 34, 58, 92, 34] ++
        List.replicate 999994 97 ++ [34, 125]).length = 1000017
      rw [List.length_append, List.length_append, List.length_replicate]
      decide
    have h2 : bigObjAsIs.length = 1000009 := by
      show ([123, 34, 97, 34, 58, 34] ++
        List.replicate 1000001 97 ++ [34, 125]).length = 1000009
      rw [List.length_append, List.length_append, List.length_replicate]
      decide
    have h3 := congrArg List.length heq
    rw [h1, h2] at h3
    norm_num at h3

/-! ## C6 — bulk sequences -/

theorem isArrayVal_of_root (heap : List JNode) (elems : List Nat) (root : Nat)
    (hroot : heap.get? root = some (.narr elems)) :
    isArrayVal ⟨heap, root⟩ = true := by
  unfold isArrayVal
  rw [show (JSVal.mk heap root).heap.get? (JSVal.mk heap root).root = heap.get? root from rfl]
  rw [hroot]

theorem isObjectVal_of_root (heap : List JNode) (elems : List Nat) (root : Nat)
    (hroot : heap.get? root = some (.narr elems)) :
    isObjectVal ⟨heap, root⟩ = true := by
  unfold isObjectVal
  rw [show (JSVal.mk heap root).heap.get? (JSVal.mk heap root).root = heap.get? root from rfl]
  rw [hroot]

theorem log_array_small_eq (c : Loggly) (cs : JSVal → JSStr) (heap : List JNode)
    (elems : List Nat) (root : Nat) (s : JSStr) (tags : Option (List JSStr))
    (hroot : heap.get? root = some (.narr elems))
    (henc : jsonStringifyVal ⟨heap, root⟩ = .ok s)
    (hsize : byteLength s ≤ EVENT_SIZE) (hbulk : c.isBulk = true) :
    Loggly.log c cs ⟨heap, root⟩ tags =
      .ok (attachAppName c (attachTags c
        { uri := c.urlBulk
          method := jstr "POST"
          body := .bulk (elems.map (fun j => serialize c cs ⟨heap, j⟩))
          isBulk := c.isBulk
          headers := c.baseHeaders }
        (c.effectiveTags tags))) := by
  unfold Loggly.log
  rw [truncatePrePass_object_small _ s (isObjectVal_of_root heap elems root hroot) henc hsize]
  show Except.ok (attachAppName c (attachTags c
      { uri := if c.isBulk then c.urlBulk else c.urlLog
        method := jstr "POST"
        body := if c.isBulk && isArrayVal ⟨heap, root⟩ then bulkBody c cs ⟨heap, root⟩
                else .single (serialize c cs ⟨heap, root⟩)
        isBulk := c.isBulk
        headers := c.baseHeaders }
      (c.effectiveTags tags))) = _
  rw [hbulk, isArrayVal_of_root heap elems root hroot]
  have hb : bulkBody c cs ⟨heap, root⟩ =
      .bulk (elems.map (fun j => serialize c cs ⟨heap, j⟩)) := by
    unfold bulkBody
    rw [show (JSVal.mk heap root).heap.get? (JSVal.mk heap root).root =
        heap.get? root from rfl, hroot]
  rw [hb]
  simp

/-- C6 (amended): in bulk mode, when the JSON encoding of the whole input
array fits in `EVENT_SIZE`, the body is the ordered sequence obtained by
serializing each element independently — order preserved. The size limit
is applied once to the encoding of the whole array before this step, not
per element; when that encoding is oversized the truncated JSON text is
sent as a single non-bulk body (see the counterexample). -/
theorem bulk_order_preserved (c : Loggly) (cs : JSVal → JSStr) (heap : List JNode)
    (elems : List Nat) (root : Nat) (s : JSStr) (tags : Option (List JSStr))
    (hbulk : c.isBulk = true)
    (hroot : heap.get? root = some (.narr elems))
    (henc : jsonStringifyVal ⟨heap, root⟩ = .ok s)
    (hsize : byteLength s ≤ EVENT_SIZE) :
    logBody (Loggly.log c cs ⟨heap, root⟩ tags) =
      some (.bulk (elems.map (fun j => serialize c cs ⟨heap, j⟩))) := by
  rw [log_array_small_eq c cs heap elems root s tags hroot henc hsize hbulk]
  show some (attachAppName c (attachTags c _ _)).body = _
  rw [attachAppName_body, attachTags_body]

/-- Witness for the amended C6 theorem: bulk `["a", "b"]` yields the
ordered two-element body `["a", "b"]`. -/
theorem bulk_order_preserved_witness :
    logBody (Loggly.log bulkPlainClient emptySerialize ⟨abHeap, 2⟩ none) =
      some (.bulk ([0, 1].map (fun j => serialize bulkPlainClient emptySerialize ⟨abHeap, j⟩))) :=
  bulk_order_preserved bulkPlainClient emptySerialize abHeap [0, 1] 2
    (jstr "[\"a\",\"b\"]") none rfl rfl (by decide) (by decide)

theorem jsonStringify_arrSingle_rep (n : Nat) :
    jsonStringifyVal ⟨[.nstr (List.replicate n 97), .narr [0]], 1⟩ =
      .ok ([91, 34] ++ List.replicate n 97 ++ [34, 93]) := by
  have hrep : ∀ u ∈ (List.replicate n 97 : JSStr), 32 ≤ u ∧ u ≠ 34 ∧ u ≠ 92 := by
    intro u hu
    have := mem_replicate_bound hu
    omega
  rw [jsonStringify_arrSingle, quoteStr_plain _ hrep]
  congr 1
  simp [List.append_assoc]

/-- C6 counterexample: the bulk array `["aa…a"]` whose JSON encoding is
1,000,005 bytes is truncated as one JSON text by the pre-pass, so the
request body is a single (truncated, malformed) string — not a sequence of
independently prepared elements. -/
theorem bulk_oversized_collapses :
    logBody (Loggly.log bulkPlainClient emptySerialize bigArr none) =
      some (.single bigArrBody) ∧
    isBulkBody (.single bigArrBody) = false := by
  have henc : jsonStringifyVal bigArr =
      .ok ([91, 34] ++ List.replicate 1000001 97 ++ [34, 93]) := by
    show jsonStringifyVal ⟨[.nstr (List.replicate 1000001 97), .narr [0]], 1⟩ = _
    rw [jsonStringify_arrSingle_rep]
  have hbl : byteLength ([91, 34] ++ List.replicate 1000001 97 ++ [34, 93]) = 1000005 := by
    rw [byteLength_append_replicate _ _ _ (by decide) (by decide)]
    decide
  refine ⟨?_, rfl⟩
  calc logBody (Loggly.log bulkPlainClient emptySerialize bigArr none)
      = some (.single (if bulkPlainClient.json then
          stringify (envelope (([91, 34] ++
            List.replicate 1000001 97 ++ [34, 93]).take EVENT_SIZE))
        else ([91, 34] ++ List.replicate 1000001 97 ++ [34, 93]).take EVENT_SIZE)) := by
        rw [log_object_big_eq bulkPlainClient emptySerialize bigArr _ none rfl henc
          (by rw [hbl]; norm_num [EVENT_SIZE])]
        show some (attachAppName _ (attachTags _ _ _)).body = _
        rw [attachAppName_body, attachTags_body]
    _ = some (.single ([91, 34] ++ List.replicate 999998 97)) := by
        rw [take_append_replicate [91, 34] [34, 93] 1000001 999998 (by decide) (by decide)]
        rfl
    _ = some (.single bigArrBody) := rfl

/-! ## C7 and C10 — delivery completion -/

/-- C7: on a 200 response with a non-empty body that parses, the caller's
callback receives `(null, parsedResult)` and a `log` event is emitted with
the parsed result; when parsing fails, the callback receives an Error
whose message is the fixed prefix `Unspecified error from Loggly: `
wrapping the parse failure; on any non-200 status the callback is never
invoked with a success result. -/
theorem handle_response_completion (parse : JSStr → Except JSStr JSVal)
    (statusCode : Nat) (statusMessage body : JSStr) (r : JSVal) (e : JSStr) :
    (statusCode = 200 → body ≠ [] → parse body = .ok r →
      handleLogResponse parse true statusCode statusMessage body =
        { emitted := some r, callbackCall := some (.ok r), consoleLine := none }) ∧
    (statusCode = 200 → body ≠ [] → parse body = .error e →
      handleLogResponse parse true statusCode statusMessage body =
        { emitted := none
          callbackCall := some (.error (jstr "Unspecified error from Loggly: " ++ e))
          consoleLine := none }) ∧
    (statusCode ≠ 200 → ∀ hcb : Bool,
      (handleLogResponse parse hcb statusCode statusMessage body).callbackCall ≠
        some (.ok r)) := by
  refine ⟨?_, ?_, ?_⟩
  · intro hst hbody hp
    have hbe : body.isEmpty = false := by
      cases body
      · exact absurd rfl hbody
      · rfl
    simp [handleLogResponse, hbe, hst, hp]
  · intro hst hbody hp
    have hbe : body.isEmpty = false := by
      cases body
      · exact absurd rfl hbody
      · rfl
    simp [handleLogResponse, hbe, hst, hp]
  · intro hne hcb
    simp [handleLogResponse, hne]

/-- Witness for C7 at concrete statuses, bodies and parse outcomes. -/
theorem handle_response_completion_witness :
    handleLogResponse parseFixed true 200 [] (jstr "ok") =
      { emitted := some (strVal [120])
        callbackCall := some (.ok (strVal [120]))
        consoleLine := none } ∧
    handleLogResponse parseFail true 200 [] (jstr "zz") =
      { emitted := none
        callbackCall := some (.error (jstr "Unspecified error from Loggly: " ++ jstr "zz"))
        consoleLine := none } ∧
    (handleLogResponse parseFixed true 404 [] (jstr "ok")).callbackCall ≠
      some (.ok (strVal [120])) :=
  ⟨(handle_response_completion parseFixed 200 [] (jstr "ok") (strVal [120])
      (jstr "zz")).1 rfl (by decide) rfl,
   (handle_response_completion parseFail 200 [] (jstr "zz") (strVal [120])
      (jstr "zz")).2.1 rfl (by decide) rfl,
   (handle_response_completion parseFixed 404 [] (jstr "ok") (strVal [120])
      (jstr "zz")).2.2 (by decide) true⟩

/-- C10: on a non-200 status, or an empty body (even with status 200), the
callback is never invoked — with neither a success nor an error — no `log`
event is emitted, and the only observable effect is the console diagnostic
line `Error Code- <status> "<statusMessage>"`. -/
theorem handle_response_silent (parse : JSStr → Except JSStr JSVal) (hcb : Bool)
    (statusCode : Nat) (statusMessage body : JSStr)
    (h : statusCode ≠ 200 ∨ body = []) :
    (handleLogResponse parse hcb statusCode statusMessage body).callbackCall = none ∧
    (handleLogResponse parse hcb statusCode statusMessage body).emitted = none ∧
    (handleLogResponse parse hcb statusCode statusMessage body).consoleLine =
      some (jstr "Error Code- " ++ natToStr statusCode ++ jstr " \"" ++
        statusMessage ++ jstr "\"") := by
  rcases h with h | h
  · simp [handleLogResponse, h]
  · subst h
    simp [handleLogResponse]

/-- Witness for C10 at a concrete 404 completion. -/
theorem handle_response_silent_witness :
    (handleLogResponse parseFixed true 404 (jstr "Not Found") (jstr "oops")).callbackCall
        = none ∧
    (handleLogResponse parseFixed true 404 (jstr "Not Found") (jstr "oops")).emitted
        = none ∧
    (handleLogResponse parseFixed true 404 (jstr "Not Found") (jstr "oops")).consoleLine
        = some (jstr "Error Code- " ++ natToStr 404 ++ jstr " \"" ++
            jstr "Not Found" ++ jstr "\"") :=
  handle_response_silent parseFixed true 404 (jstr "Not Found") (jstr "oops")
    (Or.inl (by decide))

/-! ## C8 — tag merge and attachment -/

/-- C8: for every log call on a string message, the effective tag set is
the construction-time resolved default tags concatenated with the resolved
call tags when call tags are present (the default set alone otherwise),
and it is attached as the comma-joined `X-LOGGLY-TAG` header in header
mode, as a `/tag/…/` uri segment in url-path mode, and not at all when
empty or absent. -/
theorem log_tag_attachment (c : Loggly) (cs : JSVal → JSStr) (m : JSStr)
    (tags : Option (List JSStr)) (opts : LogOptions)
    (h : Loggly.log c cs (strVal m) tags = .ok opts) :
    TagAttachmentSpec c tags opts := by
  rw [log_strVal_eq] at h
  have h2 := Except.ok.inj h
  subst h2
  refine ⟨?_, ?_, ?_, ?_⟩
  · intro t ht
    subst ht
    unfold Loggly.effectiveTags
    cases hct : c.tags with
    | some ct => simp
    | none => simp
  · intro ht
    subst ht
    rfl
  · intro ts hts hne
    constructor
    · intro hh
      rw [hts, attachTags_header c _ hne hh]
      constructor
      · rw [attachAppName_headers]
      · rw [attachAppName_uri]
    · intro hh
      rw [hts, attachTags_path c _ hne hh]
      constructor
      · rw [attachAppName_uri]
      · rw [attachAppName_headers]
  · intro heff
    rcases heff with heff | heff
    · rw [heff, attachTags_none]
      exact ⟨attachAppName_headers c _, attachAppName_uri c _⟩
    · rw [heff, attachTags_some_nil]
      exact ⟨attachAppName_headers c _, attachAppName_uri c _⟩

/-- Witness for C8: a client with default tags `["env-1"]` and an appName,
called with tags `["Foo-1"]`. -/
theorem log_tag_attachment_witness :
    TagAttachmentSpec c8client (some [jstr "Foo-1"])
      ((Loggly.log c8client emptySerialize (strVal (jstr "hi"))
        (some [jstr "Foo-1"])).toOption.getD dfltOpts) :=
  log_tag_attachment c8client emptySerialize (jstr "hi") (some [jstr "Foo-1"]) _
    (by decide)

/-! ## C9 — method, destination uri and content-type -/

theorem joinWith_slash (u b t : JSStr) :
    joinWith [47] [u, b, t] = u ++ ([47] ++ b ++ [47]) ++ t := by
  show u ++ [47] ++ (b ++ [47] ++ t) = _
  simp [List.append_assoc]

/-- The ingestion urls a constructed client carries, in the claim's
spelled-out form. -/
theorem createClient_urls (version : JSStr) (o : ClientOptions) (c : Loggly)
    (hc : createClient version o = .ok c) :
    c.urlLog = jstr "https://" ++ c.host ++ jstr "/inputs/" ++ c.token ∧
    c.urlBulk = jstr "https://" ++ c.host ++ jstr "/bulk/" ++ c.token := by
  unfold createClient at hc
  split at hc
  · exact absurd hc (by simp)
  · have h1 := Except.ok.inj hc
    subst h1
    constructor
    · show joinWith [47] [jstr "https://" ++ _, jstr "inputs", o.token] = _
      rw [joinWith_slash]
      rw [show ([47] ++ jstr "inputs" ++ [47] : JSStr) = jstr "/inputs/" from by decide]
    · show joinWith [47] [jstr "https://" ++ _, jstr "bulk", o.token] = _
      rw [joinWith_slash]
      rw [show ([47] ++ jstr "bulk" ++ [47] : JSStr) = jstr "/bulk/" from by decide]

/-- C9 (amended): every request assembled by `log` for a client built by
`createClient` uses method POST, carries content-type `application/json`
in structured mode and `text/plain` otherwise, and targets
`https://<host>/bulk/<token>` in bulk mode and
`https://<host>/inputs/<token>` otherwise — except that in url-path tag
mode with a non-empty effective tag set, the `/tag/<tags>/` segment is
appended to that uri (see the counterexample for why the exception is
required). -/
theorem log_request_shape (version : JSStr) (o : ClientOptions) (c : Loggly)
    (cs : JSVal → JSStr) (m : JSStr) (tags : Option (List JSStr)) (opts : LogOptions)
    (hc : createClient version o = .ok c)
    (h : Loggly.log c cs (strVal m) tags = .ok opts) :
    RequestShapeSpec c tags opts := by
  obtain ⟨hlogUrl, hbulkUrl⟩ := createClient_urls version o c hc
  have hbase : (if c.isBulk then c.urlBulk else c.urlLog) =
      (if c.isBulk then jstr "https://" ++ c.host ++ jstr "/bulk/" ++ c.token
       else jstr "https://" ++ c.host ++ jstr "/inputs/" ++ c.token) := by
    by_cases hb : c.isBulk <;> simp [hb, hlogUrl, hbulkUrl]
  rw [log_strVal_eq] at h
  have h2 := Except.ok.inj h
  subst h2
  refine ⟨?_, ?_, ?_⟩
  · rw [attachAppName_method, attachTags_method]
  · rw [attachAppName_headers]
    apply List.mem_append_left
    cases heff : c.effectiveTags tags with
    | none =>
      rw [attachTags_none]
      simp [Loggly.baseHeaders]
    | some ts =>
      by_cases hne : ts = []
      · subst hne
        rw [attachTags_some_nil]
        simp [Loggly.baseHeaders]
      · by_cases hh : c.useTagHeader
        · rw [attachTags_header c _ hne hh]
          apply List.mem_append_left
          simp [Loggly.baseHeaders]
        · have hh2 : c.useTagHeader = false := by simpa using hh
          rw [attachTags_path c _ hne hh2]
          simp [Loggly.baseHeaders]
  · rw [attachAppName_uri]
    cases heff : c.effectiveTags tags with
    | none =>
      refine ⟨[], ?_, Or.inl rfl⟩
      rw [attachTags_none, List.append_nil]
      exact hbase
    | some ts =>
      by_cases hne : ts = []
      · subst hne
        refine ⟨[], ?_, Or.inl rfl⟩
        rw [attachTags_some_nil, List.append_nil]
        exact hbase
      · by_cases hh : c.useTagHeader
        · refine ⟨[], ?_, Or.inl rfl⟩
          rw [attachTags_header c _ hne hh, List.append_nil]
          exact hbase
        · have hh2 : c.useTagHeader = false := by simpa using hh
          refine ⟨jstr "/tag/" ++ joinWith [44] ts ++ jstr "/", ?_,
            Or.inr ⟨hh2, ts, rfl, hne, rfl⟩⟩
          rw [attachTags_path c _ hne hh2]
          show (if c.isBulk then c.urlBulk else c.urlLog) ++
              jstr "/tag/" ++ joinWith [44] ts ++ jstr "/" = _
          rw [hbase]
          simp [List.append_assoc]

/-- Witness for the amended C9 theorem through `createClient` itself. -/
theorem log_request_shape_witness :
    RequestShapeSpec c9client none
      ((Loggly.log c9client emptySerialize (strVal (jstr "hi")) none).toOption.getD
        dfltOpts) :=
  log_request_shape (jstr "1.0") c9options c9client emptySerialize (jstr "hi") none _
    (by decide) (by decide)

/-- C9 counterexample: with url-path tagging (`useTagHeader: false`) and a
valid call tag, the assembled uri is the ingestion url with `/tag/Foo-1/`
appended — not `https://<host>/inputs/<token>` itself, as the claim
requires of every log call. -/
theorem uri_includes_tag_segment :
    logUri (Loggly.log pathTagClient emptySerialize (strVal (jstr "hi"))
        (some [jstr "Foo-1"])) =
      some (jstr "https://logs-01.loggly.com/inputs/tok/tag/Foo-1/") ∧
    jstr "https://logs-01.loggly.com/inputs/tok/tag/Foo-1/" ≠
      jstr "https://logs-01.loggly.com/inputs/tok" := by
  constructor
  · decide
  · decide

end LogglyClient
